import Mathlib

/-!
# SteckbriefBot: a shallow embedding of `main.go`

The bot has one handler, `handleMessageSend`, and a configuration loader in
`main`.  The embedding below follows `main.go` line by line.

* Go strings are modelled as lists of Unicode scalar values (`Str`).  Message
  contents arrive through JSON decoding and are valid UTF-8, on which the
  byte-wise substring operations of package `strings` agree with the same
  operations on scalar values.  Go's `len` counts UTF-8 bytes and is modelled
  by `len`.
* The chat platform (`disgord.Session`), the hash and the other library calls
  the handler consults are gathered in `Session`: a record of the answers the
  outside world gives.  The handler is a function from configuration, session
  and message to the list of external calls it performs, in order (`Effect`).
* A Go run-time panic is the terminal effect `Effect.panic`: the slice
  expression of line 162 and the call of `disgord.ParseSnowflakeString` of
  line 205 can panic.  In `main` the same call panics before the bot starts.
* Log lines have no influence on control flow and are not recorded.
-/

namespace Steckbrief

/-! ## Strings (packages `strings`, `unicode`, `strconv`) -/

/-- A Go string holding valid UTF-8, as its sequence of scalar values. -/
abbrev Str := List Char

/-- Number of bytes of the UTF-8 encoding of one scalar value. -/
def utf8Size (c : Char) : Nat :=
  let n := c.toNat
  if n < 0x80 then 1 else if n < 0x800 then 2 else if n < 0x10000 then 3 else 4

/-- Go `len(s)` of a string: the number of bytes. -/
def len (s : Str) : Nat := (s.map utf8Size).sum

/-- The predicate `unicode.IsSpace`. -/
def isSpace (c : Char) : Bool :=
  let n := c.toNat
  n == 0x09 || n == 0x0A || n == 0x0B || n == 0x0C || n == 0x0D || n == 0x20 ||
  n == 0x85 || n == 0xA0 || n == 0x1680 || (0x2000 ≤ n && n ≤ 0x200A) ||
  n == 0x2028 || n == 0x2029 || n == 0x202F || n == 0x205F || n == 0x3000

/-- The function `strings.TrimSpace`. -/
def trimSpace (s : Str) : Str := (s.dropWhile isSpace).rdropWhile isSpace

/-- The function `strings.HasPrefix`. -/
def hasPrefix (s p : Str) : Bool := p.isPrefixOf s

/-- The function `strings.HasSuffix`. -/
def hasSuffix (s p : Str) : Bool := p.isSuffixOf s

/-- The function `strings.TrimPrefix`. -/
def trimPrefix (s p : Str) : Str := if hasPrefix s p then s.drop p.length else s

/-- The function `strings.TrimSuffix`. -/
def trimSuffix (s p : Str) : Str :=
  if hasSuffix s p then s.take (s.length - p.length) else s

/-- Scan of `strings.Split` for a non-empty separator: the second argument
counts the characters of a separator occurrence still to be skipped. -/
def splitAux (sep : Str) : Str → Nat → List Str
  | [], _ => [[]]
  | _ :: rest, k + 1 => splitAux sep rest k
  | c :: rest, 0 =>
    if sep.isPrefixOf (c :: rest) then [] :: splitAux sep rest (sep.length - 1)
    else
      match splitAux sep rest 0 with
      | p :: ps => (c :: p) :: ps
      | [] => [[c]]

/-- The function `strings.Split(s, sep)`: the pieces between the leftmost
non-overlapping occurrences of `sep`; an empty `sep` explodes `s`. -/
def split (s sep : Str) : List Str :=
  if sep = [] then s.map (fun c => [c]) else splitAux sep s 0

/-- The function `strings.Replace(s, old, new, -1)`. -/
def replaceAll (s old new : Str) : Str :=
  if old = [] then new ++ s.flatMap (fun c => c :: new)
  else List.intercalate new (split s old)

/-- The function `strconv.FormatUint(n, 10)`. -/
def formatUint (n : Nat) : Str := Nat.toDigits 10 n

/-- Value of a decimal digit. -/
def digitVal (c : Char) : Option Nat :=
  let n := c.toNat
  if 48 ≤ n ∧ n ≤ 57 then some (n - 48) else none

/-- The two kinds of `strconv.NumError`. -/
inductive NumErr where
  | syn
  | range
  deriving DecidableEq, Repr

/-- Largest `uint64`. -/
def maxUint64 : Nat := 2 ^ 64 - 1

/-- Digit loop of `strconv.ParseUint(s, 10, 64)`. -/
def parseUintLoop : Str → Nat → Nat × Option NumErr
  | [], n => (n, none)
  | c :: cs, n =>
    match digitVal c with
    | none => (0, some NumErr.syn)
    | some d =>
      if n ≥ maxUint64 / 10 + 1 then (maxUint64, some NumErr.range)
      else
        let n1 := n * 10 + d
        if n1 > maxUint64 then (maxUint64, some NumErr.range)
        else parseUintLoop cs n1

/-- The function `strconv.ParseUint(s, 10, 64)`: value and error. -/
def parseUint (s : Str) : Nat × Option NumErr :=
  if s = [] then (0, some NumErr.syn) else parseUintLoop s 0

/-- The function `strconv.Atoi` on a 64-bit platform (its fast path computes
the same result as `ParseInt(s, 10, 0)`): value and error. -/
def atoi (s : Str) : Int × Option NumErr :=
  match s with
  | [] => (0, some NumErr.syn)
  | c :: cs =>
    let neg : Bool := c == '-'
    let digits : Str := if c == '+' || c == '-' then cs else c :: cs
    match parseUint digits with
    | (_, some NumErr.syn) => (0, some NumErr.syn)
    | (un, _) =>
      if !neg && un ≥ 2 ^ 63 then ((2 : Int) ^ 63 - 1, some NumErr.range)
      else if neg && un > 2 ^ 63 then (-(2 : Int) ^ 63, some NumErr.range)
      else (if neg then -(un : Int) else (un : Int), none)

/-! ## Configuration (`main`) -/

/-- The process environment: `os.LookupEnv`. -/
abbrev Environ := Str → Option Str

/-- The function `getEnv`. -/
def getEnv (env : Environ) (key fallback : Str) : Str :=
  match env key with
  | some value => value
  | none => fallback

/-- The function `os.Getenv`. -/
def osGetenv (env : Environ) (key : Str) : Str := (env key).getD []

/-- The package-level variables set by `main`. -/
structure Config where
  SteckbriefChannel : Nat
  SteckbriefRole : Nat
  MessageFetchLimit : Nat
  MinLength : Int

/-- The library function `disgord.ParseSnowflakeString`: the empty string is
the zero snowflake, a decimal `uint64` is its value, and every other string
makes the call panic (`none`). -/
def ParseSnowflakeString (v : Str) : Option Nat :=
  if v = [] then some 0
  else
    match parseUint v with
    | (id, none) => some id
    | (_, some _) => none

/-- The assignments at the start of `main` (lines 36 to 40);
`parseSnowflakeString` is `disgord.ParseSnowflakeString`, and `none` is the
panic of one of its two calls. -/
def mainConfig (parseSnowflakeString : Str → Option Nat) (env : Environ) : Option Config :=
  match parseSnowflakeString (osGetenv env "STECKBRIEF_CHANNEL".toList) with
  | none => none
  | some channel =>
    match parseSnowflakeString (osGetenv env "STECKBRIEF_ROLE".toList) with
    | none => none
    | some role =>
      some
        { SteckbriefChannel := channel
          SteckbriefRole := role
          MessageFetchLimit :=
            (parseUint (getEnv env "MESSAGE_FETCH_LIMIT".toList "100".toList)).1
          MinLength := (atoi (getEnv env "MESSAGE_FETCH_LIMIT".toList "200".toList)).1 }

/-! ## Data model (`disgord`) -/

/-- The type `disgord.EmbedField`. -/
structure EmbedField where
  Name : Str
  Value : Str
  deriving DecidableEq, Repr

/-- The type `disgord.EmbedThumbnail`. -/
structure EmbedThumbnail where
  URL : Str
  Height : Nat
  Width : Nat
  deriving DecidableEq, Repr

/-- The type `disgord.Embed`, with the fields the handler sets or reads. -/
structure Embed where
  Title : Str
  Description : Str
  Color : Int
  Thumbnail : Option EmbedThumbnail
  Fields : List EmbedField
  deriving DecidableEq, Repr

/-- The type `disgord.User`. -/
structure User where
  ID : Nat
  deriving DecidableEq, Repr

/-- The type `disgord.Message`. -/
structure Message where
  ID : Nat
  GuildID : Nat
  Author : User
  Content : Str
  Embeds : List Embed
  deriving DecidableEq, Repr

/-- A SHA-256 digest: 32 bytes. -/
abbrev Digest := Fin 32 → Fin 256

/-- What the outside world answers to the calls of one handler run. -/
structure Session where
  /-- Library `disgord.ParseSnowflakeString`; `none` is a panic. -/
  parseSnowflakeString : Str → Option Nat
  /-- Library `Snowflake.HexString`. -/
  hexString : Nat → Str
  /-- Library `User.Mention`. -/
  mention : User → Str
  /-- Library `sha256.Sum256`. -/
  sum256 : Str → Digest
  /-- Library `User.AvatarURL(64, false)`; `none` is an error. -/
  avatarURL : User → Option Str
  /-- Call `session.Channel(id).Get()`: the channel's ID, `none` is an error. -/
  getChannel : Nat → Option Nat
  /-- Call `session.Guild(g).Member(u).Get()`: the member's roles. -/
  getMember : Nat → Nat → Option (List Nat)
  /-- Call `session.Channel(id).GetMessages(limit)`. -/
  getMessages : Nat → Nat → Option (List Message)
  /-- Call `session.User(id).Get()`. -/
  getUser : Nat → Option User
  /-- Whether `session.Channel(c).Message(m).Update().SetEmbed(e).Execute()` succeeds. -/
  updateMessage : Nat → Nat → Embed → Bool
  /-- Whether `session.SendMsg(c, e)` succeeds. -/
  sendMsg : Nat → Embed → Bool
  /-- Whether `session.Guild(g).Member(u).AddRole(r)` succeeds. -/
  addRole : Nat → Nat → Nat → Bool
  /-- Whether `msg.Reply(text)` succeeds. -/
  reply : Str → Bool

/-- The external calls of the handler. -/
inductive Effect where
  | reply (text : Str)
  | getChannel (channel : Nat)
  | getMember (guild user : Nat)
  | getMessages (channel limit : Nat)
  | getUser (user : Nat)
  | updateMessage (channel message : Nat) (embed : Embed)
  | sendMsg (channel : Nat) (embed : Embed)
  | addRole (guild user role : Nat)
  | panic
  deriving DecidableEq, Repr

/-! ## The profile parser (`handleMessageSend`, lines 108 to 144) -/

/-- The command keyword. -/
def keyword : Str := "steckbrief".toList

/-- The two ways the parsing block leaves the handler. -/
inductive ParseError where
  /-- Branch `len(lines) <= 1`. -/
  | noFields
  /-- Branch taken at line `i` whose split starts with `key`. -/
  | malformedField (i : Nat) (key : Str)
  deriving DecidableEq, Repr

/-- The variable `message` of line 109. -/
def messageBody (content : Str) : Str :=
  trimSpace (trimPrefix (replaceAll content "`".toList []) keyword)

/-- The variable `lines` of line 110. -/
def bodyLines (content : Str) : List Str := split (messageBody content) "\n".toList

/-- The condition of line 132 on `splits`. -/
def badSplits (splits : List Str) : Bool :=
  splits.length != 2 ||
    (splits.length == 2 &&
      (decide (len (trimSpace (splits.getD 0 [])) < 1) ||
        decide (len (trimSpace (splits.getD 1 [])) < 1)))

/-- The loop of lines 122 to 144, run over the lines from index `i` on with
the fields collected so far. -/
def parseLoop : List Str → Nat → List EmbedField → Except ParseError (List EmbedField)
  | [], _, fields => Except.ok fields
  | line :: rest, i, fields =>
    if len (trimSpace line) < 1 then parseLoop rest (i + 1) fields
    else
      let splits := split line ": ".toList
      if badSplits splits then Except.error (ParseError.malformedField i (splits.getD 0 []))
      else
        parseLoop rest (i + 1)
          (fields ++ [{ Name := splits.getD 0 [], Value := splits.getD 1 [] }])

/-- Result of the parsing block: `name` and `fields`. -/
structure Submission where
  name : Str
  fields : List EmbedField
  deriving DecidableEq, Repr

/-- Lines 108 to 144 as a function of the message content. -/
def parseSubmission (content : Str) : Except ParseError Submission :=
  let lines := bodyLines content
  let name := lines.getD 0 []
  if lines.length ≤ 1 then Except.error ParseError.noFields
  else
    match parseLoop (lines.drop 1) 1 [] with
    | Except.error e => Except.error e
    | Except.ok fields => Except.ok { name := name, fields := fields }

/-! ## The colour (`handleMessageSend`, lines 159 to 166) -/

/-- The function `binary.BigEndian.Uint64` on the start of a digest. -/
def uint64BE (d : Digest) : Nat :=
  (List.finRange 8).foldl (fun acc i => acc * 256 + (d (Fin.castLE (by decide) i)).val) 0

/-- Lines 162 to 166 from `hashNr` on; `none` is the panic of the slice
expression `[0:5]` on a string shorter than five bytes. -/
def colorOfHashNr (hashNr : Nat) : Option Int :=
  let s := formatUint hashNr
  if s.length < 5 then none
  else
    match atoi (s.take 5) with
    | (color, none) => some color
    | (_, some _) => some 0

/-- Lines 160 to 166 from the digest on. -/
def deriveColor (digest : Digest) : Option Int := colorOfHashNr (uint64BE digest)

/-! ## The history scan (`handleMessageSend`, lines 193 to 217) -/

/-- Line 199: the user reference inside a card description. -/
def preSnowflake (description : Str) : Str :=
  trimPrefix (trimSuffix description ">".toList) "<@".toList

/-- How the loop over `messages` ends: without a match, with the ID of the
message to update, or in the panic of `disgord.ParseSnowflakeString`. -/
inductive ScanResult where
  | notFound
  | found (loc : Nat)
  | panicked
  deriving DecidableEq, Repr

/-- The loop over `messages`: how it ends and the user lookups made. -/
def findExisting (parseSnowflakeString : Str → Option Nat) (getUser : Nat → Option User)
    (target : Nat) : List Message → ScanResult × List Effect
  | [] => (ScanResult.notFound, [])
  | message :: rest =>
    match message.Embeds with
    | [] => findExisting parseSnowflakeString getUser target rest
    | embed :: _ =>
      if preSnowflake embed.Description = [] then
        findExisting parseSnowflakeString getUser target rest
      else
        match parseSnowflakeString (preSnowflake embed.Description) with
        | none => (ScanResult.panicked, [])
        | some snowflake =>
          match getUser snowflake with
          | none =>
            let r := findExisting parseSnowflakeString getUser target rest
            (r.1, Effect.getUser snowflake :: r.2)
          | some steckbriefSender =>
            if steckbriefSender.ID = target then
              (ScanResult.found message.ID, [Effect.getUser snowflake])
            else
              let r := findExisting parseSnowflakeString getUser target rest
              (r.1, Effect.getUser snowflake :: r.2)

/-! ## The handler -/

/-- Reply of line 83. -/
def tooShortText : Str := "Bitte füge mehr Informationen zu deinem Steckbrief hinzu :grin:".toList

/-- Reply of line 91. -/
def noChannelText : Str :=
  "Es konnte kein Steckbrief Kanal gefunden werden! Bitte kontaktiere einen Systemadministator.".toList

/-- Reply of line 118. -/
def noFieldsText : Str := "Keine Informationen wurden im Steckbrief gefunden.".toList

/-- Reply of line 134. -/
def malformedText (key : Str) : Str :=
  "Fehler im Steckbrief! Kategorie `".toList ++ key ++
    "` des Steckbriefs hat keinen zugehörigen Wert.".toList

/-- Reply of line 225. -/
def updateFailedText : Str := "Fehler beim Aktualisieren deines Steckbriefes.".toList

/-- Reply of line 228. -/
def updatedText : Str := "Dein Steckbrief wurde aktualisiert.".toList

/-- Reply of line 243. -/
def roleFailedText : Str :=
  "Fehler beim geben der Steckbriefrolle! Bitte wende dich an den Systemadministrator.".toList

/-- Lines 96 to 106: whether the member holds the role. -/
def hasRole (cfg : Config) (member : Option (List Nat)) : Bool :=
  match member with
  | some roles => roles.any (fun role => role == cfg.SteckbriefRole)
  | none => false

/-- Lines 169 to 175. -/
def buildEmbed (s : Session) (msg : Message) (sub : Submission) (avatarUrl : Str)
    (color : Int) : Embed :=
  { Title := "Steckbrief von ".toList ++ sub.name
    Description := s.mention msg.Author
    Color := color
    Thumbnail := some { URL := avatarUrl, Height := 64, Width := 64 }
    Fields := sub.fields }

/-- Lines 221 to 231, entered with `updateRequired` set (the test
`&updateableMessage != nil` of line 222 compares the address of a local
variable and always holds). -/
def updateCard (cfg : Config) (s : Session) (loc : Nat) (embed : Embed) : List Effect :=
  Effect.updateMessage cfg.SteckbriefChannel loc embed ::
    ((if s.updateMessage cfg.SteckbriefChannel loc embed then []
      else [Effect.reply updateFailedText]) ++
     [Effect.reply updatedText])

/-- Lines 233 to 245. -/
def publishCard (cfg : Config) (s : Session) (msg : Message) (channelID : Nat)
    (embed : Embed) : List Effect :=
  Effect.sendMsg channelID embed ::
    (if s.sendMsg channelID embed then
      Effect.addRole msg.GuildID msg.Author.ID cfg.SteckbriefRole ::
        (if s.addRole msg.GuildID msg.Author.ID cfg.SteckbriefRole then []
         else [Effect.reply roleFailedText])
     else [])

/-- Lines 177 to 245: scan when the role is held, then update or publish; a
panic inside the scan ends the run. -/
def deliver (cfg : Config) (s : Session) (msg : Message) (channelID : Nat)
    (held : Bool) (embed : Embed) : List Effect :=
  if held then
    Effect.getMessages cfg.SteckbriefChannel cfg.MessageFetchLimit ::
      (match s.getMessages cfg.SteckbriefChannel cfg.MessageFetchLimit with
       | none => []
       | some messages =>
         let r := findExisting s.parseSnowflakeString s.getUser msg.Author.ID messages
         r.2 ++
           (match r.1 with
            | ScanResult.found loc => updateCard cfg s loc embed
            | ScanResult.notFound => publishCard cfg s msg channelID embed
            | ScanResult.panicked => [Effect.panic]))
  else publishCard cfg s msg channelID embed

/-- Lines 79 to 246: the body of `if strings.HasPrefix(msg.Content, "steckbrief")`. -/
def handleSteckbrief (cfg : Config) (s : Session) (msg : Message) : List Effect :=
  if (len msg.Content : Int) < cfg.MinLength then [Effect.reply tooShortText]
  else
    Effect.getChannel cfg.SteckbriefChannel ::
      (match s.getChannel cfg.SteckbriefChannel with
       | none => [Effect.reply noChannelText]
       | some channelID =>
         Effect.getMember msg.GuildID msg.Author.ID ::
           (match parseSubmission msg.Content with
            | Except.error ParseError.noFields => [Effect.reply noFieldsText]
            | Except.error (ParseError.malformedField _ key) =>
              [Effect.reply (malformedText key)]
            | Except.ok sub =>
              match s.avatarURL msg.Author with
              | none => []
              | some avatarUrl =>
                match deriveColor (s.sum256 (s.hexString msg.Author.ID)) with
                | none => [Effect.panic]
                | some color =>
                  deliver cfg s msg channelID
                    (hasRole cfg (s.getMember msg.GuildID msg.Author.ID))
                    (buildEmbed s msg sub avatarUrl color)))

/-- The handler `handleMessageSend`: the external calls it makes, in order. -/
def handleMessageSend (cfg : Config) (s : Session) (msg : Message) : List Effect :=
  let steckbrief : List Effect :=
    if hasPrefix msg.Content keyword then handleSteckbrief cfg s msg else []
  if msg.Content = "ping".toList then
    Effect.reply "pong".toList :: (if s.reply "pong".toList then steckbrief else [])
  else steckbrief

/-! ## Vocabulary of the specification -/

/-- The separator between key and value. -/
def fieldSep : Str := ": ".toList

/-- A line is blank: empty after trimming. -/
def Blank (l : Str) : Prop := trimSpace l = []

/-- A line splits on the separator into exactly two parts, both non-empty
after trimming. -/
def WellFormed (l : Str) : Prop :=
  (split l fieldSep).length = 2 ∧ trimSpace ((split l fieldSep).getD 0 []) ≠ [] ∧
    trimSpace ((split l fieldSep).getD 1 []) ≠ []

/-- A line is non-blank and does not split into two non-empty parts. -/
def Malformed (l : Str) : Prop := ¬ Blank l ∧ ¬ WellFormed l

instance (l : Str) : Decidable (Blank l) := by unfold Blank; infer_instance

instance (l : Str) : Decidable (WellFormed l) := by unfold WellFormed; infer_instance

instance (l : Str) : Decidable (Malformed l) := by unfold Malformed; infer_instance

/-- The first part of a line's split. -/
def firstPart (l : Str) : Str := (split l fieldSep).getD 0 []

/-- The second part of a line's split. -/
def secondPart (l : Str) : Str := (split l fieldSep).getD 1 []

/-- One (key, value) pair per non-blank line, in the order of the lines. -/
def expectedFields (ls : List Str) : List EmbedField :=
  (ls.filter (fun l => decide (¬ Blank l))).map
    (fun l => { Name := firstPart l, Value := secondPart l })

/-- The card an effect carries to the submission channel, if it is a
publication or an update. -/
def Effect.card? : Effect → Option Embed
  | Effect.sendMsg _ embed => some embed
  | Effect.updateMessage _ _ embed => some embed
  | _ => none

/-- The reference the specification extracts from a history entry: the first
card's description without a trailing `>` and then without a leading `<@`;
`none` when the entry has no card or the reference is empty. -/
def entryReference (entry : Message) : Option Str :=
  match entry.Embeds with
  | [] => none
  | card :: _ =>
    let reference := trimPrefix (trimSuffix card.Description ">".toList) "<@".toList
    if reference = [] then none else some reference

/-- The four conditions of the specification on a history entry: it has a
card, the extracted reference is non-empty, it is resolved without error to a
user, and that user is the target. -/
def matchesEntry (parseSnowflakeString : Str → Option Nat) (userLookup : Nat → Option User)
    (target : Nat) (entry : Message) : Bool :=
  match entryReference entry with
  | none => false
  | some reference =>
    match parseSnowflakeString reference with
    | none => false
    | some id =>
      match userLookup id with
      | some user => user.ID == target
      | none => false

/-- The entry carries a non-empty reference that is not a snowflake. -/
def unparsableEntry (parseSnowflakeString : Str → Option Nat) (entry : Message) : Bool :=
  match entryReference entry with
  | none => false
  | some reference => (parseSnowflakeString reference).isNone

/-- The text of a message after the keyword, backticks removed, before any
trimming. -/
def rawBody (content : Str) : Str :=
  trimPrefix (replaceAll content "`".toList []) keyword

/-! ## Concrete inputs -/

deriving instance DecidableEq for Except

/-- A card as found in the channel history, with the given description. -/
def historyCard (description : Str) : Embed :=
  { Title := "Steckbrief von Max".toList
    Description := description
    Color := 18446
    Thumbnail := none
    Fields := [{ Name := "Alter".toList, Value := "22".toList }] }

/-- A history: an entry without card, one with an empty reference, one whose
user lookup fails, one of another user, and two of user 42. -/
def exampleHistory : List Message :=
  [ { ID := 100, GuildID := 2, Author := { ID := 1 }, Content := [], Embeds := [] },
    { ID := 101, GuildID := 2, Author := { ID := 1 }, Content := [],
      Embeds := [historyCard "<@>".toList] },
    { ID := 102, GuildID := 2, Author := { ID := 1 }, Content := [],
      Embeds := [historyCard "<@404>".toList] },
    { ID := 103, GuildID := 2, Author := { ID := 1 }, Content := [],
      Embeds := [historyCard "<@7>".toList] },
    { ID := 104, GuildID := 2, Author := { ID := 1 }, Content := [],
      Embeds := [historyCard "<@42>".toList] },
    { ID := 105, GuildID := 2, Author := { ID := 1 }, Content := [],
      Embeds := [historyCard "<@42>".toList] } ]

/-- A session in which every call succeeds, except the lookup of user 404. -/
def exampleSession : Session :=
  { parseSnowflakeString := ParseSnowflakeString
    hexString := fun n => Nat.toDigits 16 n
    mention := fun u => "<@".toList ++ formatUint u.ID ++ ">".toList
    sum256 := fun _ _ => 255
    avatarURL := fun _ => some "avatar".toList
    getChannel := fun id => some id
    getMember := fun _ _ => some [5]
    getMessages := fun _ _ => some exampleHistory
    getUser := fun id => if id = 404 then none else some { ID := id }
    updateMessage := fun _ _ _ => true
    sendMsg := fun _ _ => true
    addRole := fun _ _ _ => true
    reply := fun _ => true }

/-- The session `exampleSession` with a failing update call. -/
def failingUpdateSession : Session :=
  { exampleSession with updateMessage := fun _ _ _ => false }

/-- Channel 10, role 5, fetch limit 100, minimum length 20. -/
def exampleConfig : Config :=
  { SteckbriefChannel := 10, SteckbriefRole := 5, MessageFetchLimit := 100, MinLength := 20 }

/-- The first example scenario of the specification, sent by user 42. -/
def exampleMessage : Message :=
  { ID := 1, GuildID := 2, Author := { ID := 42 }
    Content := "steckbrief Max Mustermann\nAlter: 23\nHobby: Schach".toList
    Embeds := [] }

/-- The card built from `exampleMessage` in `exampleSession`. -/
def exampleCard : Embed :=
  { Title := "Steckbrief von Max Mustermann".toList
    Description := "<@42>".toList
    Color := 18446
    Thumbnail := some { URL := "avatar".toList, Height := 64, Width := 64 }
    Fields := [{ Name := "Alter".toList, Value := "23".toList },
      { Name := "Hobby".toList, Value := "Schach".toList }] }

/-- The second example scenario of the specification. -/
def malformedMessage : Message :=
  { ID := 1, GuildID := 2, Author := { ID := 42 }
    Content := "steckbrief Max\nAlter 23\nHobby: Schach".toList
    Embeds := [] }

/-- A display name followed by blank lines only. -/
def nameOnlyMessage : Message :=
  { ID := 1, GuildID := 2, Author := { ID := 42 }
    Content := "steckbrief Max Mustermann\n  \n\n".toList
    Embeds := [] }

/-- A message of 12 characters and 13 bytes. -/
def umlautMessage : Message :=
  { ID := 1, GuildID := 2, Author := { ID := 42 }
    Content := "steckbrief ü".toList
    Embeds := [] }

/-- The configuration `exampleConfig` with minimum length 13. -/
def umlautConfig : Config := { exampleConfig with MinLength := 13 }

/-- An environment that sets only `MESSAGE_FETCH_LIMIT`, to 50. -/
def fetchLimitEnv : Environ :=
  fun key => if key = "MESSAGE_FETCH_LIMIT".toList then some "50".toList else none

/-- A digest of 32 zero bytes. -/
def zeroDigest : Digest := fun _ => 0

/-- A history whose first entry is a card that is not a profile card (its
description is plain text), followed by the card of user 42. -/
def previewHistory : List Message :=
  [ { ID := 200, GuildID := 2, Author := { ID := 1 }, Content := [],
      Embeds := [historyCard "hello".toList] },
    { ID := 201, GuildID := 2, Author := { ID := 1 }, Content := [],
      Embeds := [historyCard "<@42>".toList] } ]

/-- The session `exampleSession` with the history `previewHistory`. -/
def previewSession : Session :=
  { exampleSession with getMessages := fun _ _ => some previewHistory }

/-- A message whose text after the keyword starts with a blank line. -/
def blankFirstLineMessage : Message :=
  { ID := 1, GuildID := 2, Author := { ID := 42 }
    Content := "steckbrief\n\nAlter: 23\nHobby: Schach".toList
    Embeds := [] }

/-- The session `exampleSession` with a member who holds no role. -/
def newcomerSession : Session :=
  { exampleSession with getMember := fun _ _ => some [] }

/-- A message whose text after the keyword is whitespace only. -/
def whitespaceMessage : Message :=
  { ID := 1, GuildID := 2, Author := { ID := 42 }
    Content := "steckbrief  \n \n\t ".toList
    Embeds := [] }

/-! ## Lemmas on strings -/

theorem utf8Size_pos (c : Char) : 0 < utf8Size c := by
  unfold utf8Size
  simp only
  split_ifs <;> omega

theorem len_eq_zero_iff (s : Str) : len s = 0 ↔ s = [] := by
  cases s with
  | nil => simp [len]
  | cons c t =>
    have := utf8Size_pos c
    simp [len]
    omega

theorem len_lt_one_iff (s : Str) : len s < 1 ↔ s = [] := by
  rw [← len_eq_zero_iff]; omega

theorem trimSpace_eq_nil_iff (s : Str) : trimSpace s = [] ↔ ∀ c ∈ s, isSpace c = true := by
  unfold trimSpace
  rw [List.rdropWhile_eq_nil_iff]
  constructor
  · intro h
    have hd : s.dropWhile isSpace = [] := by
      by_contra hne
      have h1 := List.head_dropWhile_not isSpace s hne
      have h2 := h _ (List.head_mem hne)
      rw [h1] at h2
      exact Bool.noConfusion h2
    exact List.dropWhile_eq_nil_iff.mp hd
  · intro h c hc
    rw [List.dropWhile_eq_nil_iff.mpr h] at hc
    exact absurd hc (List.not_mem_nil c)

theorem trimSpace_head (s : Str) (c : Char) (t : Str) (h : trimSpace s = c :: t) :
    isSpace c = false := by
  unfold trimSpace at h
  obtain ⟨r, hr⟩ := List.rdropWhile_prefix isSpace (l := s.dropWhile isSpace)
  rw [h] at hr
  have hne : s.dropWhile isSpace ≠ [] := by rw [← hr]; simp
  have h1 := List.head_dropWhile_not isSpace s hne
  have : (s.dropWhile isSpace).head hne = c := by
    simp [← hr]
  rw [this] at h1
  exact h1

theorem trimSpace_getLast (s : Str) (h : trimSpace s ≠ []) :
    isSpace ((trimSpace s).getLast h) = false := by
  have := List.rdropWhile_last_not isSpace (s.dropWhile isSpace) h
  simpa [trimSpace] using this

theorem trimSpace_ne_nil_of_mem (s : Str) (c : Char) (hc : c ∈ s) (hs : isSpace c = false) :
    trimSpace s ≠ [] := by
  intro h
  have := (trimSpace_eq_nil_iff s).mp h c hc
  rw [hs] at this
  exact Bool.noConfusion this

theorem trimSpace_subset (s : Str) : ∀ c ∈ trimSpace s, c ∈ s := by
  intro c hc
  unfold trimSpace at hc
  have h1 := ( List.rdropWhile_prefix isSpace (l := s.dropWhile isSpace)).subset hc
  exact (List.dropWhile_suffix isSpace).subset h1

theorem trimSpace_append_spaces (s ws : Str) (h : ∀ c ∈ ws, isSpace c = true) :
    trimSpace (s ++ ws) = trimSpace s := by
  induction ws using List.reverseRecOn with
  | nil => simp
  | append_singleton ws c ih =>
    have hc : isSpace c = true := h c (by simp)
    have hws : ∀ c ∈ ws, isSpace c = true := fun x hx => h x (by simp [hx])
    rw [← ih hws]
    unfold trimSpace
    rw [← List.append_assoc]
    by_cases hall : ∀ x ∈ s ++ ws, isSpace x = true
    · have h1 : ∀ x ∈ s ++ ws ++ [c], isSpace x = true := by
        intro x hx
        rcases List.mem_append.mp hx with hx | hx
        · exact hall x hx
        · simp at hx; rw [hx]; exact hc
      rw [List.dropWhile_eq_nil_iff.mpr hall, List.dropWhile_eq_nil_iff.mpr h1]
    · have hne : (s ++ ws).dropWhile isSpace ≠ [] := by
        intro h0; exact hall (List.dropWhile_eq_nil_iff.mp h0)
      rw [List.dropWhile_append, if_neg (by simpa using hne)]
      rw [List.rdropWhile_concat_pos _ _ _ hc]

theorem splitAux_ne_nil (sep : Str) : ∀ (s : Str) (k : Nat), splitAux sep s k ≠ []
  | [], _ => by simp [splitAux]
  | _ :: rest, k + 1 => by
    rw [splitAux]; exact splitAux_ne_nil sep rest k
  | c :: rest, 0 => by
    rw [splitAux]
    split_ifs
    · simp
    · split <;> simp

theorem splitAux_single_cons (c x : Char) (rest : Str) :
    splitAux [c] (x :: rest) 0 =
      if x = c then [] :: splitAux [c] rest 0
      else
        match splitAux [c] rest 0 with
        | p :: ps => (x :: p) :: ps
        | [] => [[x]] := by
  rw [splitAux]
  by_cases h : x = c
  · subst h; simp [List.isPrefixOf]
  · have : ¬ c = x := fun e => h e.symm
    simp [List.isPrefixOf, h, this]

theorem split_single (s : Str) (c : Char) : split s [c] = splitAux [c] s 0 := by
  simp [split]

theorem splitAux_single_not_mem (c : Char) :
    ∀ s : Str, c ∉ s → splitAux [c] s 0 = [s]
  | [], _ => by simp [splitAux]
  | x :: rest, h => by
    have hx : x ≠ c := fun e => h (by simp [e])
    have hr : c ∉ rest := fun e => h (by simp [e])
    rw [splitAux_single_cons, if_neg hx, splitAux_single_not_mem c rest hr]

theorem splitAux_single_head (c x : Char) (t : Str) (h : x ≠ c) :
    ∃ p ps, splitAux [c] (x :: t) 0 = (x :: p) :: ps := by
  rw [splitAux_single_cons, if_neg h]
  rcases hL : splitAux [c] t 0 with _ | ⟨p, ps⟩
  · exact absurd hL (splitAux_ne_nil _ _ _)
  · exact ⟨p, ps, rfl⟩

theorem splitAux_single_last (c x : Char) (hxc : x ≠ c) :
    ∀ s : Str, s.getLast? = some x →
      ∃ init lastp, splitAux [c] s 0 = init ++ [lastp] ∧ x ∈ lastp
  | [], h => by simp at h
  | [y], h => by
    have hy : y = x := by simpa using h
    subst hy
    refine ⟨[], [y], ?_, by simp⟩
    rw [splitAux_single_cons, if_neg hxc]
    simp [splitAux]
  | y :: z :: rest, h => by
    have h2 : (z :: rest).getLast? = some x := by
      rw [List.getLast?_cons_cons] at h; exact h
    obtain ⟨init, lastp, hL, hx⟩ := splitAux_single_last c x hxc (z :: rest) h2
    rw [splitAux_single_cons, hL]
    by_cases hy : y = c
    · rw [if_pos hy]
      exact ⟨[] :: init, lastp, by simp, hx⟩
    · rw [if_neg hy]
      cases init with
      | nil => exact ⟨[], y :: lastp, by simp, by simp [hx]⟩
      | cons p ps => exact ⟨(y :: p) :: ps, lastp, by simp, hx⟩

theorem intercalate_nil_eq (L : List Str) : List.intercalate [] L = L.flatten := by
  induction L with
  | nil => rfl
  | cons a t ih =>
    cases t with
    | nil => simp [List.intercalate, List.intersperse]
    | cons b t2 =>
      simp only [List.intercalate, List.intersperse, List.flatten_cons, List.nil_append] at ih ⊢
      rw [ih]

theorem flatten_splitAux_single (c : Char) :
    ∀ s : Str, (splitAux [c] s 0).flatten = s.filter (fun x => x != c)
  | [] => by simp [splitAux]
  | x :: rest => by
    rw [splitAux_single_cons]
    have ih := flatten_splitAux_single c rest
    by_cases hx : x = c
    · rw [if_pos hx]; simp [ih, hx]
    · rw [if_neg hx]
      rcases hL : splitAux [c] rest 0 with _ | ⟨p, ps⟩
      · exact absurd hL (splitAux_ne_nil _ _ _)
      · rw [hL] at ih
        simp only [List.flatten_cons] at ih ⊢
        rw [List.filter_cons_of_pos (by simpa using hx), ← ih]
        simp

theorem replaceAll_single (s : Str) (c : Char) :
    replaceAll s [c] [] = s.filter (fun x => x != c) := by
  simp [replaceAll, split_single, intercalate_nil_eq, flatten_splitAux_single]

/-! ## Lemmas on the parser -/

theorem fieldSep_eq : ": ".toList = fieldSep := rfl

theorem len_trim_lt_one_iff (l : Str) : len (trimSpace l) < 1 ↔ Blank l :=
  len_lt_one_iff _

theorem badSplits_eq_false_iff (l : Str) : badSplits (split l fieldSep) = false ↔ WellFormed l := by
  unfold badSplits WellFormed
  simp only [len_lt_one_iff]
  by_cases h2 : (split l fieldSep).length = 2
  · simp [h2]
  · simp [h2]

theorem badSplits_eq_true_iff (l : Str) : badSplits (split l fieldSep) = true ↔ ¬ WellFormed l := by
  rw [← badSplits_eq_false_iff]; simp

theorem expectedFields_cons_blank (l : Str) (ls : List Str) (h : Blank l) :
    expectedFields (l :: ls) = expectedFields ls := by
  simp [expectedFields, h]

theorem expectedFields_cons_nonblank (l : Str) (ls : List Str) (h : ¬ Blank l) :
    expectedFields (l :: ls) =
      { Name := firstPart l, Value := secondPart l } :: expectedFields ls := by
  simp [expectedFields, h]

theorem parseLoop_ok :
    ∀ (ls : List Str) (i : Nat) (acc : List EmbedField),
      (∀ l ∈ ls, Blank l ∨ WellFormed l) →
        parseLoop ls i acc = Except.ok (acc ++ expectedFields ls)
  | [], _, acc, _ => by simp [parseLoop, expectedFields]
  | l :: ls, i, acc, h => by
    have hl := h l (by simp)
    have hrest : ∀ x ∈ ls, Blank x ∨ WellFormed x := fun x hx => h x (by simp [hx])
    rw [parseLoop]
    by_cases hb : Blank l
    · rw [if_pos ((len_trim_lt_one_iff l).mpr hb), parseLoop_ok ls (i + 1) acc hrest,
        expectedFields_cons_blank l ls hb]
    · have hw : WellFormed l := hl.resolve_left hb
      rw [if_neg (fun hlt => hb ((len_trim_lt_one_iff l).mp hlt))]
      simp only [fieldSep_eq]
      rw [if_neg (by rw [(badSplits_eq_false_iff l).mpr hw]; simp),
        parseLoop_ok ls (i + 1) _ hrest, expectedFields_cons_nonblank l ls hb]
      simp [firstPart, secondPart]

theorem parseLoop_error :
    ∀ (pre : List Str) (l : Str) (post : List Str) (i : Nat) (acc : List EmbedField),
      (∀ x ∈ pre, Blank x ∨ WellFormed x) → Malformed l →
        parseLoop (pre ++ l :: post) i acc =
          Except.error (ParseError.malformedField (i + pre.length) (firstPart l))
  | [], l, post, i, acc, _, hm => by
    rw [List.nil_append, parseLoop]
    rw [if_neg (fun hlt => hm.1 ((len_trim_lt_one_iff l).mp hlt))]
    simp only [fieldSep_eq]
    rw [if_pos ((badSplits_eq_true_iff l).mpr hm.2)]
    simp [firstPart]
  | p :: pre, l, post, i, acc, h, hm => by
    have hp := h p (by simp)
    have hrest : ∀ x ∈ pre, Blank x ∨ WellFormed x := fun x hx => h x (by simp [hx])
    rw [List.cons_append, parseLoop]
    by_cases hb : Blank p
    · rw [if_pos ((len_trim_lt_one_iff p).mpr hb), parseLoop_error pre l post (i + 1) acc hrest hm]
      simp only [List.length_cons]
      congr 2
      omega
    · have hw : WellFormed p := hp.resolve_left hb
      rw [if_neg (fun hlt => hb ((len_trim_lt_one_iff p).mp hlt))]
      simp only [fieldSep_eq]
      rw [if_neg (by rw [(badSplits_eq_false_iff p).mpr hw]; simp),
        parseLoop_error pre l post (i + 1) _ hrest hm]
      simp only [List.length_cons]
      congr 2
      omega

theorem first_malformed :
    ∀ ls : List Str,
      (∀ l ∈ ls, Blank l ∨ WellFormed l) ∨
        ∃ pre l post, ls = pre ++ l :: post ∧ (∀ x ∈ pre, Blank x ∨ WellFormed x) ∧ Malformed l
  | [] => Or.inl (by simp)
  | l :: ls => by
    by_cases hl : Blank l ∨ WellFormed l
    · rcases first_malformed ls with h | ⟨pre, m, post, he, hp, hm⟩
      · left
        intro x hx
        rcases List.mem_cons.mp hx with hx | hx
        · rw [hx]; exact hl
        · exact h x hx
      · right
        refine ⟨l :: pre, m, post, by simp [he], ?_, hm⟩
        intro x hx
        rcases List.mem_cons.mp hx with hx | hx
        · rw [hx]; exact hl
        · exact hp x hx
    · right
      refine ⟨[], l, ls, rfl, by simp, ?_⟩
      exact ⟨fun hb => hl (Or.inl hb), fun hw => hl (Or.inr hw)⟩

theorem bodyLines_ne_nil (content : Str) : bodyLines content ≠ [] := by
  unfold bodyLines
  rw [show "\n".toList = ['\n'] from rfl, split_single]
  exact splitAux_ne_nil _ _ _

theorem parseSubmission_short (content : Str) (h : (bodyLines content).length ≤ 1) :
    parseSubmission content = Except.error ParseError.noFields := by
  simp [parseSubmission, h]

theorem parseSubmission_ok_of_lines (content name : Str) (rest : List Str)
    (hl : bodyLines content = name :: rest) (hne : rest ≠ [])
    (h : ∀ l ∈ rest, Blank l ∨ WellFormed l) :
    parseSubmission content = Except.ok { name := name, fields := expectedFields rest } := by
  have hlen : ¬ (name :: rest).length ≤ 1 := by
    cases rest with
    | nil => exact absurd rfl hne
    | cons a t => simp
  simp only [parseSubmission, hl, if_neg hlen, List.drop_succ_cons, List.drop_zero,
    parseLoop_ok rest 1 [] h]
  simp

theorem parseSubmission_error_of_lines (content name : Str) (pre : List Str) (l : Str)
    (post : List Str) (hl : bodyLines content = name :: (pre ++ l :: post))
    (h : ∀ x ∈ pre, Blank x ∨ WellFormed x) (hm : Malformed l) :
    parseSubmission content =
      Except.error (ParseError.malformedField (1 + pre.length) (firstPart l)) := by
  have hlen : ¬ (name :: (pre ++ l :: post)).length ≤ 1 := by simp
  simp only [parseSubmission, hl, if_neg hlen, List.drop_succ_cons, List.drop_zero,
    parseLoop_error pre l post 1 [] h hm]

/-- The three ways the parsing block ends, in terms of the body lines. -/
theorem parseSubmission_cases (content : Str) :
    ((bodyLines content).length ≤ 1 ∧
        parseSubmission content = Except.error ParseError.noFields) ∨
      (∃ name rest, bodyLines content = name :: rest ∧ rest ≠ [] ∧
        (∀ l ∈ rest, Blank l ∨ WellFormed l) ∧
        parseSubmission content =
          Except.ok { name := name, fields := expectedFields rest }) ∨
      (∃ name pre l post, bodyLines content = name :: (pre ++ l :: post) ∧
        (∀ x ∈ pre, Blank x ∨ WellFormed x) ∧ Malformed l ∧
        parseSubmission content =
          Except.error (ParseError.malformedField (1 + pre.length) (firstPart l))) := by
  by_cases hlen : (bodyLines content).length ≤ 1
  · exact Or.inl ⟨hlen, parseSubmission_short content hlen⟩
  · right
    rcases hL : bodyLines content with _ | ⟨name, rest⟩
    · exact absurd hL (bodyLines_ne_nil content)
    · have hne : rest ≠ [] := by
        intro h0; rw [hL, h0] at hlen; simp at hlen
      rcases first_malformed rest with h | ⟨pre, l, post, he, hp, hm⟩
      · exact Or.inl ⟨name, rest, rfl, hne, h, parseSubmission_ok_of_lines content name rest hL hne h⟩
      · subst he
        exact Or.inr ⟨name, pre, l, post, rfl, hp, hm,
          parseSubmission_error_of_lines content name pre l post hL hp hm⟩

/-! ## Lemmas on the handler -/

theorem findExisting_effects (p : Str → Option Nat) (g : Nat → Option User) (t : Nat) :
    ∀ (h : List Message), ∀ e ∈ (findExisting p g t h).2, ∃ id, e = Effect.getUser id
  | [], e, he => by simp [findExisting] at he
  | m :: rest, e, he => by
    have ih := findExisting_effects p g t rest
    rw [findExisting] at he
    split at he
    · exact ih e he
    · split_ifs at he with h1
      · exact ih e he
      · split at he
        · simp at he
        · dsimp only at he
          split at he
          · simp only [List.mem_cons] at he
            rcases he with he | he
            · exact ⟨_, he⟩
            · exact ih e he
          · split_ifs at he with h2
            · simp only [List.mem_cons, List.mem_nil_iff, or_false] at he
              exact ⟨_, he⟩
            · simp only [List.mem_cons] at he
              rcases he with he | he
              · exact ⟨_, he⟩
              · exact ih e he

theorem card_of_mem_updateCard (cfg : Config) (s : Session) (loc : Nat) (embed card : Embed)
    (e : Effect) (he : e ∈ updateCard cfg s loc embed) (hc : e.card? = some card) :
    card = embed := by
  unfold updateCard at he
  simp only [List.mem_cons, List.mem_append] at he
  rcases he with he | he | he
  · subst he; simpa [Effect.card?] using hc.symm
  · split_ifs at he
    · simp at he
    · simp at he; subst he; simp [Effect.card?] at hc
  · simp at he; subst he; simp [Effect.card?] at hc

theorem card_of_mem_publishCard (cfg : Config) (s : Session) (msg : Message) (ch : Nat)
    (embed card : Embed) (e : Effect) (he : e ∈ publishCard cfg s msg ch embed)
    (hc : e.card? = some card) : card = embed := by
  unfold publishCard at he
  simp only [List.mem_cons] at he
  rcases he with he | he
  · subst he; simpa [Effect.card?] using hc.symm
  · split_ifs at he
    · simp at he; subst he; simp [Effect.card?] at hc
    · simp at he
      rcases he with he | he <;> subst he <;> simp [Effect.card?] at hc
    · simp at he

theorem card_of_mem_deliver (cfg : Config) (s : Session) (msg : Message) (ch : Nat)
    (held : Bool) (embed card : Embed) (e : Effect)
    (he : e ∈ deliver cfg s msg ch held embed) (hc : e.card? = some card) : card = embed := by
  unfold deliver at he
  split_ifs at he
  · simp only [List.mem_cons] at he
    rcases he with he | he
    · subst he; simp [Effect.card?] at hc
    · split at he
      · simp at he
      · simp only [List.mem_append] at he
        rcases he with he | he
        · obtain ⟨id, hid⟩ := findExisting_effects _ _ _ _ e he
          subst hid; simp [Effect.card?] at hc
        · split at he
          · exact card_of_mem_updateCard cfg s _ embed card e he hc
          · exact card_of_mem_publishCard cfg s msg ch embed card e he hc
          · simp at he; subst he; simp [Effect.card?] at hc
  · exact card_of_mem_publishCard cfg s msg ch embed card e he hc

theorem card_of_mem_handleSteckbrief (cfg : Config) (s : Session) (msg : Message)
    (card : Embed) (e : Effect) (he : e ∈ handleSteckbrief cfg s msg)
    (hc : e.card? = some card) :
    ∃ sub avatarUrl color, parseSubmission msg.Content = Except.ok sub ∧
      card = buildEmbed s msg sub avatarUrl color := by
  unfold handleSteckbrief at he
  split_ifs at he
  · simp at he; subst he; simp [Effect.card?] at hc
  · simp only [List.mem_cons] at he
    rcases he with he | he
    · subst he; simp [Effect.card?] at hc
    · split at he
      · simp at he; subst he; simp [Effect.card?] at hc
      · simp only [List.mem_cons] at he
        rcases he with he | he
        · subst he; simp [Effect.card?] at hc
        · split at he
          · simp at he; subst he; simp [Effect.card?] at hc
          · simp at he; subst he; simp [Effect.card?] at hc
          · rename_i sub hsub
            split at he
            · simp at he
            · rename_i avatarUrl _
              split at he
              · simp at he; subst he; simp [Effect.card?] at hc
              · rename_i color _
                exact ⟨sub, avatarUrl, color, hsub,
                  card_of_mem_deliver cfg s msg _ _ _ card e he hc⟩

theorem ping_not_keyword : hasPrefix "ping".toList keyword = false := by decide

theorem handleMessageSend_keyword (cfg : Config) (s : Session) (msg : Message)
    (h : hasPrefix msg.Content keyword = true) :
    handleMessageSend cfg s msg = handleSteckbrief cfg s msg := by
  have hp : msg.Content ≠ "ping".toList := by
    intro e; rw [e, ping_not_keyword] at h; exact Bool.noConfusion h
  unfold handleMessageSend
  simp only [h, if_true]
  rw [if_neg hp]

theorem card_of_mem_handleMessageSend (cfg : Config) (s : Session) (msg : Message)
    (card : Embed) (e : Effect) (he : e ∈ handleMessageSend cfg s msg)
    (hc : e.card? = some card) :
    ∃ sub avatarUrl color, parseSubmission msg.Content = Except.ok sub ∧
      card = buildEmbed s msg sub avatarUrl color := by
  by_cases hk : hasPrefix msg.Content keyword = true
  · rw [handleMessageSend_keyword cfg s msg hk] at he
    exact card_of_mem_handleSteckbrief cfg s msg card e he hc
  · exfalso
    unfold handleMessageSend at he
    simp only [hk, Bool.false_eq_true, if_false] at he
    split_ifs at he
    · simp at he; subst he; simp [Effect.card?] at hc
    · simp at he; subst he; simp [Effect.card?] at hc
    · simp at he

theorem newline_isSpace : isSpace '\n' = true := by decide

theorem bodyLines_eq (content : Str) :
    bodyLines content = splitAux ['\n'] (messageBody content) 0 := by
  unfold bodyLines
  rw [show "\n".toList = ['\n'] from rfl, split_single]

theorem bodyLines_of_body_nil (content : Str) (h : messageBody content = []) :
    bodyLines content = [[]] := by
  rw [bodyLines_eq, h]; simp [splitAux]

theorem line0_not_blank (content : Str) (h : messageBody content ≠ []) :
    ¬ Blank ((bodyLines content).getD 0 []) := by
  rcases hb : messageBody content with _ | ⟨c, t⟩
  · exact absurd hb h
  · have hc : isSpace c = false := trimSpace_head _ c t hb
    have hcn : c ≠ '\n' := by
      intro e; rw [e, newline_isSpace] at hc; exact Bool.noConfusion hc
    obtain ⟨p, ps, hp⟩ := splitAux_single_head '\n' c t hcn
    rw [bodyLines_eq, hb, hp]
    simp only [List.getD_cons_zero]
    exact trimSpace_ne_nil_of_mem (c :: p) c (by simp) hc

theorem lastLine_not_blank (content : Str) (h : messageBody content ≠ []) :
    ∃ init lastl, bodyLines content = init ++ [lastl] ∧ ¬ Blank lastl := by
  have hsp := trimSpace_getLast _ h
  have hcn : (messageBody content).getLast h ≠ '\n' := by
    intro e
    have : isSpace ((messageBody content).getLast h) = false := hsp
    rw [e, newline_isSpace] at this; exact Bool.noConfusion this
  obtain ⟨init, lastl, hL, hx⟩ :=
    splitAux_single_last '\n' _ hcn (messageBody content) (List.getLast?_eq_getLast _ h)
  refine ⟨init, lastl, by rw [bodyLines_eq, hL], ?_⟩
  exact trimSpace_ne_nil_of_mem lastl _ hx hsp

theorem expectedFields_ne_nil (ls : List Str) (l : Str) (hl : l ∈ ls) (hb : ¬ Blank l) :
    expectedFields ls ≠ [] := by
  unfold expectedFields
  intro h
  have h1 : l ∈ ls.filter (fun l => decide (¬ Blank l)) := by
    rw [List.mem_filter]; exact ⟨hl, by simpa using hb⟩
  rw [List.map_eq_nil_iff] at h
  rw [h] at h1
  exact absurd h1 (List.not_mem_nil l)

theorem fields_ne_nil_of_ok (content : Str) (sub : Submission)
    (h : parseSubmission content = Except.ok sub) : sub.fields ≠ [] := by
  rcases parseSubmission_cases content with ⟨_, he⟩ | ⟨name, rest, hL, hne, _, he⟩ |
      ⟨_, _, _, _, _, _, _, he⟩
  · rw [he] at h; cases h
  · rw [he] at h
    injection h with h
    subst h
    have hbody : messageBody content ≠ [] := by
      intro h0
      rw [bodyLines_of_body_nil content h0] at hL
      injection hL with _ h2
      exact hne h2.symm
    obtain ⟨init, lastl, hI, hb⟩ := lastLine_not_blank content hbody
    have hmem : lastl ∈ rest := by
      have h1 : (name :: rest).getLast? = some lastl := by
        rw [← hL, hI]; simp
      rcases rest with _ | ⟨r, rs⟩
      · exact absurd rfl hne
      · rw [List.getLast?_cons_cons] at h1
        exact List.mem_of_getLast?_eq_some h1
    exact expectedFields_ne_nil rest lastl hmem hb
  · rw [he] at h; cases h

theorem name_of_ok (content : Str) (sub : Submission)
    (h : parseSubmission content = Except.ok sub) :
    sub.name = (bodyLines content).getD 0 [] ∧ 2 ≤ (bodyLines content).length := by
  unfold parseSubmission at h
  simp only at h
  split_ifs at h with hlen
  split at h
  · cases h
  · injection h with h
    subst h
    exact ⟨rfl, by omega⟩

theorem noFields_of_line0_blank (content : Str) (h : Blank ((bodyLines content).getD 0 [])) :
    parseSubmission content = Except.error ParseError.noFields := by
  have hbody : messageBody content = [] := by
    by_contra hne
    exact line0_not_blank content hne h
  exact parseSubmission_short content (by rw [bodyLines_of_body_nil content hbody]; simp)

theorem handleSteckbrief_ok (cfg : Config) (s : Session) (msg : Message) (sub : Submission)
    (channelID : Nat) (avatarUrl : Str) (color : Int)
    (hlen : cfg.MinLength ≤ (len msg.Content : Int))
    (hp : parseSubmission msg.Content = Except.ok sub)
    (hch : s.getChannel cfg.SteckbriefChannel = some channelID)
    (hav : s.avatarURL msg.Author = some avatarUrl)
    (hcol : deriveColor (s.sum256 (s.hexString msg.Author.ID)) = some color) :
    handleSteckbrief cfg s msg =
      Effect.getChannel cfg.SteckbriefChannel :: Effect.getMember msg.GuildID msg.Author.ID ::
        deliver cfg s msg channelID (hasRole cfg (s.getMember msg.GuildID msg.Author.ID))
          (buildEmbed s msg sub avatarUrl color) := by
  unfold handleSteckbrief
  rw [if_neg (by omega)]
  simp only [hch, hp, hav, hcol]

theorem handleSteckbrief_error (cfg : Config) (s : Session) (msg : Message) (err : ParseError)
    (hlen : cfg.MinLength ≤ (len msg.Content : Int))
    (hp : parseSubmission msg.Content = Except.error err) :
    handleSteckbrief cfg s msg =
        [Effect.getChannel cfg.SteckbriefChannel, Effect.reply noChannelText] ∨
      handleSteckbrief cfg s msg =
        [Effect.getChannel cfg.SteckbriefChannel, Effect.getMember msg.GuildID msg.Author.ID,
          Effect.reply
            (match err with
             | ParseError.noFields => noFieldsText
             | ParseError.malformedField _ key => malformedText key)] := by
  unfold handleSteckbrief
  rw [if_neg (by omega)]
  rcases hch : s.getChannel cfg.SteckbriefChannel with _ | ch
  · left; rfl
  · right
    cases err <;> simp only [hp]

theorem no_card_of_error (cfg : Config) (s : Session) (msg : Message) (err : ParseError)
    (hp : parseSubmission msg.Content = Except.error err) :
    ∀ e ∈ handleMessageSend cfg s msg, e.card? = none := by
  intro e he
  rcases hc : e.card? with _ | card
  · rfl
  · obtain ⟨sub, _, _, hs, _⟩ := card_of_mem_handleMessageSend cfg s msg card e he hc
    rw [hp] at hs; cases hs

/-! ## Lemmas on the colour -/

theorem digitVal_digitChar (k : Nat) (hk : k < 10) : digitVal (Nat.digitChar k) = some k := by
  interval_cases k <;> decide

theorem digits_toDigitsCore :
    ∀ (fuel n : Nat) (ds : Str), (∀ c ∈ ds, ∃ d, digitVal c = some d ∧ d ≤ 9) →
      ∀ c ∈ Nat.toDigitsCore 10 fuel n ds, ∃ d, digitVal c = some d ∧ d ≤ 9
  | 0, _, ds, h => by simpa [Nat.toDigitsCore] using h
  | fuel + 1, n, ds, h => by
    have hd : ∀ c ∈ Nat.digitChar (n % 10) :: ds, ∃ d, digitVal c = some d ∧ d ≤ 9 := by
      intro c hc
      rcases List.mem_cons.mp hc with hc | hc
      · have hlt : n % 10 < 10 := Nat.mod_lt _ (by decide)
        exact ⟨n % 10, by rw [hc]; exact digitVal_digitChar _ hlt, by omega⟩
      · exact h c hc
    rw [Nat.toDigitsCore]
    split_ifs
    · exact hd
    · exact digits_toDigitsCore fuel (n / 10) _ hd

theorem length_toDigitsCore_ge :
    ∀ (fuel n : Nat) (ds : Str) (k : Nat), n < fuel → 10 ^ k ≤ n →
      k + 1 + ds.length ≤ (Nat.toDigitsCore 10 fuel n ds).length
  | 0, _, _, _, hf, _ => by omega
  | fuel + 1, n, ds, k, hf, hk => by
    rw [Nat.toDigitsCore]
    have hpos : 0 < n := lt_of_lt_of_le (Nat.pos_pow_of_pos k (by decide)) hk
    by_cases h0 : n / 10 = 0
    · rw [if_pos h0]
      have hn : n < 10 := by omega
      have hk0 : k = 0 := by
        rcases k with _ | k
        · rfl
        · have : 10 ^ (k + 1) ≥ 10 := by
            rw [pow_succ]
            have := Nat.pos_pow_of_pos k (show 0 < 10 by decide)
            omega
          omega
      subst hk0
      simp only [List.length_cons]
      omega
    · rw [if_neg h0]
      have hf2 : n / 10 < fuel := by omega
      rcases k with _ | k
      · have := length_toDigitsCore_ge fuel (n / 10) (Nat.digitChar (n % 10) :: ds) 0 hf2
          (by simp; omega)
        simp only [List.length_cons] at this
        omega
      · have hk2 : 10 ^ k ≤ n / 10 := by
          rw [Nat.le_div_iff_mul_le (by decide)]
          rw [pow_succ] at hk
          exact hk
        have := length_toDigitsCore_ge fuel (n / 10) (Nat.digitChar (n % 10) :: ds) k hf2 hk2
        simp only [List.length_cons] at this
        omega

theorem length_formatUint_ge (n : Nat) (h : 10000 ≤ n) : 5 ≤ (formatUint n).length := by
  have := length_toDigitsCore_ge (n + 1) n [] 4 (by omega) (by simpa using h)
  simpa [formatUint, Nat.toDigits] using this

theorem length_formatUint_lt (n : Nat) (h : n < 10000) : (formatUint n).length < 5 := by
  have := Nat.toDigitsCore_length 10 (by decide) (n + 1) n 4 (by simpa using h) (by decide)
  simp only [formatUint, Nat.toDigits]
  omega

theorem digits_formatUint (n : Nat) :
    ∀ c ∈ formatUint n, ∃ d, digitVal c = some d ∧ d ≤ 9 :=
  digits_toDigitsCore (n + 1) n [] (by simp)

theorem not_sign_of_digit (c : Char) (d : Nat) (h : digitVal c = some d) :
    c ≠ '+' ∧ c ≠ '-' := by
  have p1 : digitVal '+' = none := by decide
  have p2 : digitVal '-' = none := by decide
  have h1 : c ≠ '+' := by
    intro e; rw [e, p1] at h; cases h
  have h2 : c ≠ '-' := by
    intro e; rw [e, p2] at h; cases h
  exact ⟨h1, h2⟩

theorem parseUintLoop_digit (c : Char) (cs : Str) (n d : Nat)
    (hc : digitVal c = some d) (hd : d ≤ 9) (hn : n < 10 ^ 18) :
    parseUintLoop (c :: cs) n = parseUintLoop cs (n * 10 + d) := by
  have hmax : maxUint64 = 18446744073709551615 := by decide
  rw [parseUintLoop]
  simp only [hc, hmax]
  have h1 : ¬ n ≥ 18446744073709551615 / 10 + 1 := by omega
  have h2 : ¬ n * 10 + d > 18446744073709551615 := by omega
  rw [if_neg h1, if_neg h2]

theorem atoi_five_digits (a b c d e : Char) (va vb vc vd ve : Nat)
    (ha : digitVal a = some va) (hb : digitVal b = some vb) (hc : digitVal c = some vc)
    (hd : digitVal d = some vd) (he : digitVal e = some ve)
    (la : va ≤ 9) (lb : vb ≤ 9) (lc : vc ≤ 9) (ld : vd ≤ 9) (le : ve ≤ 9) :
    atoi [a, b, c, d, e] =
      ((((((va * 10 + vb) * 10 + vc) * 10 + vd) * 10 + ve : Nat) : Int), none) := by
  have hs := not_sign_of_digit a va ha
  have hp : parseUint [a, b, c, d, e] =
      ((((va * 10 + vb) * 10 + vc) * 10 + vd) * 10 + ve, none) := by
    unfold parseUint
    rw [if_neg (List.cons_ne_nil a _), parseUintLoop_digit a _ 0 va ha la (by omega),
      parseUintLoop_digit b _ _ vb hb lb (by omega),
      parseUintLoop_digit c _ _ vc hc lc (by omega),
      parseUintLoop_digit d _ _ vd hd ld (by omega),
      parseUintLoop_digit e _ _ ve he le (by omega), parseUintLoop]
    simp
  have hlt : ¬ (9223372036854775808 ≤ (((va * 10 + vb) * 10 + vc) * 10 + vd) * 10 + ve) := by
    omega
  simp [atoi, hs.1, hs.2, hp, hlt]

/-- The colour derivation completes exactly on the numbers of at least five
decimal digits, and its result then lies between 0 and 99999. -/
theorem colorOfHashNr_complete (n : Nat) :
    (colorOfHashNr n = none ↔ n < 10000) ∧
      (10000 ≤ n → ∃ color, colorOfHashNr n = some color ∧ 0 ≤ color ∧ color ≤ 99999) := by
  have hge : 10000 ≤ n → ∃ color, colorOfHashNr n = some color ∧ 0 ≤ color ∧ color ≤ 99999 := by
    intro h
    have hl := length_formatUint_ge n h
    have hdig := digits_formatUint n
    unfold colorOfHashNr
    simp only
    rw [if_neg (by omega)]
    rcases hs : formatUint n with _ | ⟨a, _ | ⟨b, _ | ⟨c, _ | ⟨d, _ | ⟨e, rest⟩⟩⟩⟩⟩
    all_goals rw [hs] at hl hdig
    all_goals try (simp at hl; done)
    obtain ⟨va, ha, la⟩ := hdig a (by simp)
    obtain ⟨vb, hb, lb⟩ := hdig b (by simp)
    obtain ⟨vc, hc, lc⟩ := hdig c (by simp)
    obtain ⟨vd, hd, ld⟩ := hdig d (by simp)
    obtain ⟨ve, he, le⟩ := hdig e (by simp)
    have ht : List.take 5 (a :: b :: c :: d :: e :: rest) = [a, b, c, d, e] := by simp
    rw [ht, atoi_five_digits a b c d e va vb vc vd ve ha hb hc hd he la lb lc ld le]
    refine ⟨_, rfl, ?_, ?_⟩
    · positivity
    · have : (((va * 10 + vb) * 10 + vc) * 10 + vd) * 10 + ve ≤ 99999 := by omega
      exact_mod_cast this
  refine ⟨⟨?_, ?_⟩, hge⟩
  · intro h
    by_contra hn
    obtain ⟨c, hc, _⟩ := hge (by omega)
    rw [h] at hc; cases hc
  · intro h
    unfold colorOfHashNr
    simp only
    rw [if_pos (length_formatUint_lt n h)]

theorem mem_tail_iff_index (name : Str) (rest : List Str) (l : Str) :
    l ∈ rest ↔ ∃ i, 1 ≤ i ∧ (name :: rest)[i]? = some l := by
  constructor
  · intro h
    obtain ⟨n, hn⟩ := List.getElem?_of_mem h
    exact ⟨n + 1, by omega, by simpa using hn⟩
  · rintro ⟨i, hi, h⟩
    obtain ⟨j, rfl⟩ : ∃ j, i = j + 1 := ⟨i - 1, by omega⟩
    rw [List.getElem?_cons_succ] at h
    exact List.getElem?_mem h

theorem take_first_malformed (name : Str) (pre : List Str) (l : Str) (post : List Str) :
    (name :: (pre ++ l :: post)).take (1 + pre.length + 1) = name :: (pre ++ [l]) := by
  have h1 : 1 + pre.length + 1 = (name :: (pre ++ [l])).length := by simp; omega
  have h2 : name :: (pre ++ l :: post) = (name :: (pre ++ [l])) ++ post := by simp
  rw [h1, h2, List.take_left]

/-! ## The claims -/

/-- C1: a keyword message of sufficient length whose body has at least two
lines, every line after line 0 being blank or well formed, parses
successfully; the display name is line 0, the fields are one pair per non-blank
line after line 0 in line order, their number is the number of those lines,
and this name and these fields are what the card handed to delivery holds. -/
theorem parse_accepts_wellformed (cfg : Config) (s : Session) (msg : Message)
    (hkw : hasPrefix msg.Content keyword = true)
    (hlen : cfg.MinLength ≤ (len msg.Content : Int))
    (h2 : 2 ≤ (bodyLines msg.Content).length)
    (hall : ∀ i l, 1 ≤ i → (bodyLines msg.Content)[i]? = some l → Blank l ∨ WellFormed l) :
    parseSubmission msg.Content =
        Except.ok
          { name := (bodyLines msg.Content).getD 0 [],
            fields := expectedFields ((bodyLines msg.Content).drop 1) } ∧
      (expectedFields ((bodyLines msg.Content).drop 1)).length =
        ((bodyLines msg.Content).drop 1).countP (fun l => decide (¬ Blank l)) ∧
      ∀ channelID avatarUrl color,
        s.getChannel cfg.SteckbriefChannel = some channelID →
        s.avatarURL msg.Author = some avatarUrl →
        deriveColor (s.sum256 (s.hexString msg.Author.ID)) = some color →
        handleMessageSend cfg s msg =
          Effect.getChannel cfg.SteckbriefChannel ::
            Effect.getMember msg.GuildID msg.Author.ID ::
              deliver cfg s msg channelID
                (hasRole cfg (s.getMember msg.GuildID msg.Author.ID))
                { Title := "Steckbrief von ".toList ++ (bodyLines msg.Content).getD 0 []
                  Description := s.mention msg.Author
                  Color := color
                  Thumbnail := some { URL := avatarUrl, Height := 64, Width := 64 }
                  Fields := expectedFields ((bodyLines msg.Content).drop 1) } := by
  rcases hL : bodyLines msg.Content with _ | ⟨name, rest⟩
  · exact absurd hL (bodyLines_ne_nil _)
  · have hne : rest ≠ [] := by
      intro h0; rw [hL, h0] at h2; simp at h2
    have hrest : ∀ l ∈ rest, Blank l ∨ WellFormed l := by
      intro l hl
      obtain ⟨i, hi, hget⟩ := (mem_tail_iff_index name rest l).mp hl
      exact hall i l hi (by rw [hL]; exact hget)
    have hp := parseSubmission_ok_of_lines msg.Content name rest hL hne hrest
    simp only [List.getD_cons_zero, List.drop_succ_cons, List.drop_zero]
    refine ⟨hp, ?_, ?_⟩
    · simp [expectedFields, List.countP_eq_length_filter]
    · intro channelID avatarUrl color hch hav hcol
      rw [handleMessageSend_keyword cfg s msg hkw,
        handleSteckbrief_ok cfg s msg _ channelID avatarUrl color hlen hp hch hav hcol]
      rfl

/-- C2: for a keyword message of sufficient length with at least two body
lines, parsing fails with a malformed-field error exactly when some line after
line 0 is malformed; the error is the one of the smallest such index and
carries the first part of that line's split; it does not depend on the lines
after it; and the handler then neither publishes nor updates a card, its only
reply being the channel notice or the field error. -/
theorem malformed_field_first (cfg : Config) (s : Session) (msg : Message)
    (hkw : hasPrefix msg.Content keyword = true)
    (hlen : cfg.MinLength ≤ (len msg.Content : Int))
    (h2 : 2 ≤ (bodyLines msg.Content).length) :
    ((∃ i key, parseSubmission msg.Content =
          Except.error (ParseError.malformedField i key)) ↔
        ∃ i l, 1 ≤ i ∧ (bodyLines msg.Content)[i]? = some l ∧ Malformed l) ∧
      ∀ i key,
        parseSubmission msg.Content = Except.error (ParseError.malformedField i key) →
          1 ≤ i ∧
          (∃ l, (bodyLines msg.Content)[i]? = some l ∧ Malformed l ∧ key = firstPart l) ∧
          (∀ j l, 1 ≤ j → j < i → (bodyLines msg.Content)[j]? = some l → ¬ Malformed l) ∧
          (∀ content2 : Str,
            (bodyLines content2).take (i + 1) = (bodyLines msg.Content).take (i + 1) →
              parseSubmission content2 = Except.error (ParseError.malformedField i key)) ∧
          (∀ e ∈ handleMessageSend cfg s msg, e.card? = none) ∧
          (handleMessageSend cfg s msg =
              [Effect.getChannel cfg.SteckbriefChannel, Effect.reply noChannelText] ∨
            handleMessageSend cfg s msg =
              [Effect.getChannel cfg.SteckbriefChannel,
                Effect.getMember msg.GuildID msg.Author.ID,
                Effect.reply (malformedText key)]) := by
  rcases parseSubmission_cases msg.Content with ⟨hs, _⟩ | ⟨name, rest, hL, _, hrest, he⟩ |
      ⟨name, pre, l, post, hL, hpre, hm, he⟩
  · omega
  · refine ⟨⟨?_, ?_⟩, ?_⟩
    · rintro ⟨i, key, h⟩
      rw [he] at h; cases h
    · rintro ⟨i, l, hi, hget, hm⟩
      rw [hL] at hget
      have hmem := (mem_tail_iff_index name rest l).mpr ⟨i, hi, hget⟩
      rcases hrest l hmem with hb | hw
      · exact absurd hb hm.1
      · exact absurd hw hm.2
    · intro i key h
      rw [he] at h; cases h
  · have hget : (bodyLines msg.Content)[1 + pre.length]? = some l := by
      rw [hL, Nat.add_comm, List.getElem?_cons_succ,
        List.getElem?_append_right (Nat.le_refl _)]
      simp
    refine ⟨⟨fun _ => ⟨1 + pre.length, l, by omega, hget, hm⟩,
      fun _ => ⟨1 + pre.length, firstPart l, he⟩⟩, ?_⟩
    intro i key h
    rw [he] at h
    injection h with h
    injection h with hi hk
    subst hi
    subst hk
    refine ⟨by omega, ⟨l, hget, hm, rfl⟩, ?_, ?_, no_card_of_error cfg s msg _ he, ?_⟩
    · intro j x hj hji hx hmx
      obtain ⟨k, rfl⟩ : ∃ k, j = k + 1 := ⟨j - 1, by omega⟩
      rw [hL, List.getElem?_cons_succ, List.getElem?_append_left (by omega)] at hx
      have hxm : x ∈ pre := List.getElem?_mem hx
      rcases hpre x hxm with hb | hw
      · exact hmx.1 hb
      · exact hmx.2 hw
    · intro content2 htake
      rw [hL, take_first_malformed] at htake
      have hL2 : bodyLines content2 =
          name :: (pre ++ l :: (bodyLines content2).drop (1 + pre.length + 1)) := by
        conv_lhs => rw [← List.take_append_drop (1 + pre.length + 1) (bodyLines content2)]
        rw [htake]
        simp
      exact parseSubmission_error_of_lines content2 name pre l _ hL2 hpre hm
    · rw [handleMessageSend_keyword cfg s msg hkw]
      exact handleSteckbrief_error cfg s msg _ hlen he

/-- C7: an accepted submission has at least one field, so every card the
handler publishes or updates has a non-empty field list; a message that is the
keyword followed by a display name and then only whitespace (blank lines
included) is rejected for having no fields. -/
theorem fields_nonempty (cfg : Config) (s : Session) (msg : Message) :
    (∀ sub, parseSubmission msg.Content = Except.ok sub → sub.fields ≠ []) ∧
      (∀ e ∈ handleMessageSend cfg s msg, ∀ card, e.card? = some card → card.Fields ≠ []) ∧
      (∀ name blanks : Str, msg.Content = keyword ++ name ++ blanks → '\n' ∉ name →
        (∀ c ∈ blanks, isSpace c = true) →
          parseSubmission msg.Content = Except.error ParseError.noFields ∧
          (∀ e ∈ handleMessageSend cfg s msg, e.card? = none) ∧
          (cfg.MinLength ≤ (len msg.Content : Int) →
            handleMessageSend cfg s msg =
                [Effect.getChannel cfg.SteckbriefChannel, Effect.reply noChannelText] ∨
              handleMessageSend cfg s msg =
                [Effect.getChannel cfg.SteckbriefChannel,
                  Effect.getMember msg.GuildID msg.Author.ID,
                  Effect.reply noFieldsText])) := by
  refine ⟨fun sub h => fields_ne_nil_of_ok _ sub h, ?_, ?_⟩
  · intro e he card hc
    obtain ⟨sub, url, color, hs, hcard⟩ := card_of_mem_handleMessageSend cfg s msg card e he hc
    rw [hcard]
    exact fields_ne_nil_of_ok _ sub hs
  · intro name blanks hcont hname hblanks
    have hbody : messageBody msg.Content =
        trimSpace (name.filter (fun x => x != Char.ofNat 96)) := by
      unfold messageBody
      rw [show "`".toList = [Char.ofNat 96] from rfl, replaceAll_single, hcont,
        List.filter_append, List.filter_append]
      have hk : keyword.filter (fun x => x != Char.ofNat 96) = keyword := by decide
      rw [hk, List.append_assoc]
      have hpre : trimPrefix (keyword ++
          (name.filter (fun x => x != Char.ofNat 96) ++
            blanks.filter (fun x => x != Char.ofNat 96))) keyword =
          name.filter (fun x => x != Char.ofNat 96) ++
            blanks.filter (fun x => x != Char.ofNat 96) := by
        unfold trimPrefix hasPrefix
        rw [if_pos (by
          rw [ List.isPrefixOf_iff_prefix]; exact List.prefix_append _ _)]
        exact List.drop_left _ _
      rw [hpre]
      exact trimSpace_append_spaces _ _
        (fun c hc => hblanks c (List.mem_of_mem_filter hc))
    have hno : '\n' ∉ messageBody msg.Content := by
      intro hmem
      rw [hbody] at hmem
      exact hname (List.mem_of_mem_filter (trimSpace_subset _ _ hmem))
    have hlines : bodyLines msg.Content = [messageBody msg.Content] := by
      rw [bodyLines_eq]; exact splitAux_single_not_mem '\n' _ hno
    have hp : parseSubmission msg.Content = Except.error ParseError.noFields :=
      parseSubmission_short _ (by rw [hlines]; simp)
    refine ⟨hp, no_card_of_error cfg s msg _ hp, ?_⟩
    intro hlen
    have hkw : hasPrefix msg.Content keyword = true := by
      unfold hasPrefix
      rw [ List.isPrefixOf_iff_prefix, hcont, List.append_assoc]
      exact List.prefix_append _ _
    rw [handleMessageSend_keyword cfg s msg hkw]
    exact handleSteckbrief_error cfg s msg _ hlen hp

/-- C8, amended: the display name of an accepted submission is line 0 of the
text after the keyword once surrounding whitespace, blank lines included, is
trimmed away, and it is non-empty after trimming, as is the name in the title
of every card the handler publishes or updates; line 0 of the trimmed body is
blank only when the trimmed body is empty, and then the message is rejected by
the no-fields branch and no card is built. -/
theorem name_is_line0_of_trimmed_body (cfg : Config) (s : Session) (msg : Message) :
    (∀ sub, parseSubmission msg.Content = Except.ok sub →
        sub.name = (split (trimSpace (rawBody msg.Content)) "\n".toList).getD 0 [] ∧
          trimSpace sub.name ≠ []) ∧
      (∀ e ∈ handleMessageSend cfg s msg, ∀ card, e.card? = some card →
        ∃ name, card.Title = "Steckbrief von ".toList ++ name ∧ trimSpace name ≠ []) ∧
      (Blank ((split (trimSpace (rawBody msg.Content)) "\n".toList).getD 0 []) ↔
        trimSpace (rawBody msg.Content) = []) ∧
      (trimSpace (rawBody msg.Content) = [] →
        parseSubmission msg.Content = Except.error ParseError.noFields ∧
          ∀ e ∈ handleMessageSend cfg s msg, e.card? = none) := by
  have hbody : trimSpace (rawBody msg.Content) = messageBody msg.Content := rfl
  have hlines : split (messageBody msg.Content) "\n".toList = bodyLines msg.Content := rfl
  rw [hbody, hlines]
  have key : ∀ sub, parseSubmission msg.Content = Except.ok sub → trimSpace sub.name ≠ [] := by
    intro sub h hb
    rw [(name_of_ok _ sub h).1] at hb
    have := noFields_of_line0_blank msg.Content hb
    rw [this] at h; cases h
  refine ⟨fun sub h => ⟨(name_of_ok _ sub h).1, key sub h⟩, ?_, ⟨?_, ?_⟩, ?_⟩
  · intro e he card hc
    obtain ⟨sub, url, color, hs, hcard⟩ := card_of_mem_handleMessageSend cfg s msg card e he hc
    exact ⟨sub.name, by rw [hcard]; rfl, key sub hs⟩
  · intro hb
    by_contra hne
    exact line0_not_blank msg.Content hne hb
  · intro h0
    rw [bodyLines_of_body_nil msg.Content h0]
    rfl
  · intro h0
    have hp : parseSubmission msg.Content = Except.error ParseError.noFields :=
      parseSubmission_short _ (by rw [bodyLines_of_body_nil msg.Content h0]; simp)
    exact ⟨hp, no_card_of_error cfg s msg _ hp⟩

/-! ## Lemmas on the history scan -/

theorem entryReference_eq (m : Message) :
    entryReference m =
      match m.Embeds with
      | [] => none
      | card :: _ =>
        if preSnowflake card.Description = [] then none
        else some (preSnowflake card.Description) := rfl

/-- One step of the scan, in the vocabulary of the specification. -/
theorem findExisting_cons (p : Str → Option Nat) (g : Nat → Option User) (t : Nat)
    (m : Message) (rest : List Message) :
    (findExisting p g t (m :: rest)).1 =
      if matchesEntry p g t m = true then ScanResult.found m.ID
      else if unparsableEntry p m = true then ScanResult.panicked
      else (findExisting p g t rest).1 := by
  rw [findExisting]
  unfold matchesEntry unparsableEntry
  rw [entryReference_eq]
  rcases m.Embeds with _ | ⟨card, more⟩
  · simp
  · by_cases h1 : preSnowflake card.Description = []
    · simp [h1]
    · rcases hp : p (preSnowflake card.Description) with _ | id
      · simp [h1, hp]
      · rcases hu : g id with _ | u
        · simp [h1, hp, hu]
        · by_cases h2 : u.ID = t
          · simp [h1, hp, hu, h2]
          · simp [h1, hp, hu, h2]

theorem findExisting_skip (p : Str → Option Nat) (g : Nat → Option User) (t : Nat) :
    ∀ (before rest : List Message),
      (∀ x ∈ before, matchesEntry p g t x = false ∧ unparsableEntry p x = false) →
        (findExisting p g t (before ++ rest)).1 = (findExisting p g t rest).1
  | [], _, _ => rfl
  | m :: before, rest, h => by
    have hm := h m (by simp)
    rw [List.cons_append, findExisting_cons, hm.1, hm.2]
    simp only [Bool.false_eq_true, if_false]
    exact findExisting_skip p g t before rest (fun x hx => h x (by simp [hx]))

/-- The scan panics at the first entry with an unparsable reference when no
entry before it matches. -/
theorem findExisting_panicked (p : Str → Option Nat) (g : Nat → Option User) (t : Nat)
    (before : List Message) (e : Message) (after : List Message)
    (hb : ∀ x ∈ before, matchesEntry p g t x = false ∧ unparsableEntry p x = false)
    (he : unparsableEntry p e = true) :
    (findExisting p g t (before ++ e :: after)).1 = ScanResult.panicked := by
  have hm : matchesEntry p g t e = false := by
    unfold unparsableEntry at he
    unfold matchesEntry
    rcases hr : entryReference e with _ | r
    · rfl
    · rw [hr] at he
      rcases hp : p r with _ | id
      · simp [hp]
      · simp [hp] at he
  rw [findExisting_skip p g t before _ hb, findExisting_cons, hm, if_pos he]
  simp

/-- C3: on a history whose first entry is a card with the plain-text
description `hello`, followed by the card of user 42, the call of
`disgord.ParseSnowflakeString` on the reference `hello` panics: the scan is
aborted instead of skipping the entry, and the handler ends in that panic
right after fetching the history. -/
theorem findExisting_panics_on_unparsable_reference :
    entryReference (previewHistory.getD 0 exampleMessage) = some "hello".toList ∧
      ParseSnowflakeString "hello".toList = none ∧
      (findExisting ParseSnowflakeString exampleSession.getUser 42 previewHistory).1 =
        ScanResult.panicked ∧
      handleMessageSend exampleConfig previewSession exampleMessage =
        [Effect.getChannel 10, Effect.getMember 2 42, Effect.getMessages 10 100,
          Effect.panic] := by
  decide

/-- C5: on a digest whose first eight bytes are zero, `hashNr` is 0, its decimal
rendering is the one-character string 0, and the slice of its first five bytes
panics: the colour derivation does not complete. -/
theorem deriveColor_panics_on_short_decimal :
    uint64BE zeroDigest = 0 ∧ formatUint (uint64BE zeroDigest) = "0".toList ∧
      deriveColor zeroDigest = none := by
  decide

/-- C6, counterexample: a keyword message of 12 characters and 13 bytes with
minimum length 13 has fewer characters than the minimum, yet the handler does
not answer with the too-short notice and goes on to fetch the channel. -/
theorem tooShort_not_by_characters :
    hasPrefix umlautMessage.Content keyword = true ∧
      (umlautMessage.Content.length : Int) < umlautConfig.MinLength ∧
      handleMessageSend umlautConfig exampleSession umlautMessage ≠
        [Effect.reply tooShortText] ∧
      Effect.getChannel 10 ∈ handleMessageSend umlautConfig exampleSession umlautMessage := by
  decide

/-- C6, amended: for a keyword message the handler answers with the too-short
notice and does nothing else exactly when the number of bytes of the message
content is smaller than the minimum length. -/
theorem tooShort_iff_bytes (cfg : Config) (s : Session) (msg : Message)
    (hkw : hasPrefix msg.Content keyword = true) :
    handleMessageSend cfg s msg = [Effect.reply tooShortText] ↔
      (len msg.Content : Int) < cfg.MinLength := by
  rw [handleMessageSend_keyword cfg s msg hkw]
  unfold handleSteckbrief
  constructor
  · intro h
    by_contra hlt
    rw [if_neg hlt] at h
    injection h with h1 _
    cases h1
  · intro hlt
    rw [if_pos hlt]

/-- C8, counterexample: in a message whose text after the keyword starts with
a blank line, line 0 of the body is empty after trimming, yet the message is
accepted: the first non-blank line becomes the display name and the card is
published with it as title. -/
theorem blank_first_line_accepted :
    Blank ((split (rawBody blankFirstLineMessage.Content) "\n".toList).getD 0 []) ∧
      parseSubmission blankFirstLineMessage.Content =
        Except.ok
          { name := "Alter: 23".toList
            fields := [{ Name := "Hobby".toList, Value := "Schach".toList }] } ∧
      handleMessageSend exampleConfig newcomerSession blankFirstLineMessage =
        [Effect.getChannel 10, Effect.getMember 2 42,
          Effect.sendMsg 10
            { Title := "Steckbrief von Alter: 23".toList
              Description := "<@42>".toList
              Color := 18446
              Thumbnail := some { URL := "avatar".toList, Height := 64, Width := 64 }
              Fields := [{ Name := "Hobby".toList, Value := "Schach".toList }] },
          Effect.addRole 2 42 5] := by
  decide

/-- C9: with `MESSAGE_FETCH_LIMIT` set to 50 and nothing else, the minimum
length loaded by `main` is 50, not 200; it is 200 in the empty environment. -/
theorem minLength_read_from_fetch_limit :
    (mainConfig ParseSnowflakeString fetchLimitEnv).map (fun c => c.MessageFetchLimit) =
        some 50 ∧
      (mainConfig ParseSnowflakeString fetchLimitEnv).map (fun c => c.MinLength) = some 50 ∧
      (mainConfig ParseSnowflakeString (fun _ => none)).map (fun c => c.MinLength) =
        some 200 := by
  decide

/-- C10: when the scan has found the sender's card and the update call fails,
the handler replies with the update-failure notice and then still replies that
the card was updated. -/
theorem update_failure_still_notifies :
    handleMessageSend exampleConfig failingUpdateSession exampleMessage =
      [Effect.getChannel 10, Effect.getMember 2 42, Effect.getMessages 10 100,
        Effect.getUser 404, Effect.getUser 7, Effect.getUser 42,
        Effect.updateMessage 10 104 exampleCard, Effect.reply updateFailedText,
        Effect.reply updatedText] := by
  decide

/-! ## Witnesses -/

theorem index_of_forall_tail (lines : List Str) (P : Str → Prop)
    (h : ∀ l ∈ lines.drop 1, P l) : ∀ i l, 1 ≤ i → lines[i]? = some l → P l := by
  intro i l hi hget
  obtain ⟨j, rfl⟩ : ∃ j, i = j + 1 := ⟨i - 1, by omega⟩
  apply h l
  apply List.getElem?_mem (n := j)
  rw [List.getElem?_drop, Nat.add_comm]
  exact hget

/-- Witness of C1 on the first example scenario. -/
theorem parse_accepts_wellformed_witness :
    hasPrefix exampleMessage.Content keyword = true ∧
      exampleConfig.MinLength ≤ (len exampleMessage.Content : Int) ∧
      2 ≤ (bodyLines exampleMessage.Content).length ∧
      (∀ i l, 1 ≤ i → (bodyLines exampleMessage.Content)[i]? = some l →
        Blank l ∨ WellFormed l) ∧
      parseSubmission exampleMessage.Content =
        Except.ok
          { name := "Max Mustermann".toList
            fields := [{ Name := "Alter".toList, Value := "23".toList },
              { Name := "Hobby".toList, Value := "Schach".toList }] } :=
  ⟨by decide, by decide, by decide, index_of_forall_tail _ _ (by decide),
    (parse_accepts_wellformed exampleConfig exampleSession exampleMessage (by decide)
      (by decide) (by decide) (index_of_forall_tail _ _ (by decide))).1⟩

/-- Witness of C2 on the second example scenario: line 1 has no separator. -/
theorem malformed_field_first_witness :
    hasPrefix malformedMessage.Content keyword = true ∧
      exampleConfig.MinLength ≤ (len malformedMessage.Content : Int) ∧
      2 ≤ (bodyLines malformedMessage.Content).length ∧
      parseSubmission malformedMessage.Content =
        Except.error (ParseError.malformedField 1 "Alter 23".toList) ∧
      ∀ e ∈ handleMessageSend exampleConfig exampleSession malformedMessage,
        e.card? = none :=
  ⟨by decide, by decide, by decide, by decide,
    ((malformed_field_first exampleConfig exampleSession malformedMessage (by decide)
      (by decide) (by decide)).2 1 "Alter 23".toList (by decide)).2.2.2.2.1⟩

/-- Witness of C6 as amended: 13 bytes against a minimum of 20. -/
theorem tooShort_iff_bytes_witness :
    hasPrefix umlautMessage.Content keyword = true ∧
      handleMessageSend exampleConfig exampleSession umlautMessage =
        [Effect.reply tooShortText] :=
  ⟨by decide,
    (tooShort_iff_bytes exampleConfig exampleSession umlautMessage (by decide)).mpr
      (by decide)⟩

/-- Witness of C7: a display name followed by blank lines only. -/
theorem fields_nonempty_witness :
    parseSubmission nameOnlyMessage.Content = Except.error ParseError.noFields :=
  ((fields_nonempty exampleConfig exampleSession nameOnlyMessage).2.2
    " Max Mustermann".toList "\n  \n\n".toList (by decide) (by decide) (by decide)).1

/-- Witness of C8 as amended: a body of whitespace only is rejected. -/
theorem name_is_line0_of_trimmed_body_witness :
    trimSpace (rawBody whitespaceMessage.Content) = [] ∧
      parseSubmission whitespaceMessage.Content = Except.error ParseError.noFields :=
  ⟨by decide,
    ((name_is_line0_of_trimmed_body exampleConfig exampleSession whitespaceMessage).2.2.2
      (by decide)).1⟩

end Steckbrief
